import Mathlib

/-!
Verification of the spielrs-diff library: a shallow embedding of the tree
model, tree builder, structural comparator, content flattener, content
reader, content comparator and the two orchestrators (`dir_diff`,
`file_diff`), together with theorems settling the specification claims.

The asynchronous filesystem primitives (`tokio::fs::read_dir`,
`tokio::fs::read_to_string`) are modelled by an inductive snapshot of the
filesystem (`FsEntry`) and an abstract path-indexed reading function.
A `.unwrap()` panic on an I/O failure in the source is modelled as an
`Except.error` carrying an `IoError`, so that failure aborts the whole
operation and no partial result is ever produced.
-/

namespace SpielrsDiff

/-- An I/O failure, carrying the offending path. -/
structure IoError where
  path : String
deriving DecidableEq, Repr

/-- Represent a tree directory (struct `Tree` in src/tree.rs): entry name,
full path, and for directories the ordered list of children (`subdir`);
`none` marks a file. -/
inductive Tree where
  | mk (name : String) (path : String) (subdir : Option (List Tree))

/-- The comparison projection (struct `TreeComp` in src/tree.rs): only the
name and the recursively projected children, the path is discarded. -/
inductive TreeComp where
  | mk (name : String) (subdir : Option (List TreeComp))

def Tree.name : Tree → String
  | .mk n _ _ => n

def Tree.path : Tree → String
  | .mk _ p _ => p

def Tree.subdir : Tree → Option (List Tree)
  | .mk _ _ s => s

def TreeComp.name : TreeComp → String
  | .mk n _ => n

def TreeComp.subdir : TreeComp → Option (List TreeComp)
  | .mk _ s => s

mutual

/-- Embeds `impl From<Tree> for TreeComp` (src/tree.rs lines 78-89):
keep the name, recursively project the children, drop the path.
(`from` is a Lean keyword, hence the name `fromTree`.) -/
def TreeComp.fromTree : Tree → TreeComp
  | .mk name _ (some entry) => .mk name (some (TreeComp.fromList entry))
  | .mk name _ none => .mk name none

/-- The `entry.into_iter().map(TreeComp::from).collect()` part of
`TreeComp::from`, as an explicit list recursion. -/
def TreeComp.fromList : List Tree → List TreeComp
  | [] => []
  | t :: ts => TreeComp.fromTree t :: TreeComp.fromList ts

end

mutual

/-- Boolean equality of `TreeComp`, embedding the `#[derive(PartialEq)]`
structural equality used by `tree_diff`: same name and equal `subdir`
options, recursively. -/
def TreeComp.beq : TreeComp → TreeComp → Bool
  | .mk n₁ none, .mk n₂ none => n₁ == n₂
  | .mk n₁ (some c₁), .mk n₂ (some c₂) => n₁ == n₂ && TreeComp.beqList c₁ c₂
  | _, _ => false

/-- Structural equality of `Vec<TreeComp>`: same length, equal at every
index. -/
def TreeComp.beqList : List TreeComp → List TreeComp → Bool
  | [], [] => true
  | a :: as, b :: bs => TreeComp.beq a b && TreeComp.beqList as bs
  | _, _ => false

end

/-- Embeds `Tree::tree_diff` (src/tree.rs lines 173-179): project both
sequences with `TreeComp::from` and return true iff the projections are
not equal. -/
def tree_diff (dir_tree dir_tree_comp : List Tree) : Bool :=
  !(TreeComp.beqList (TreeComp.fromList dir_tree) (TreeComp.fromList dir_tree_comp))

/-- A leaf reference produced by flattening (struct `ExtratedFile` in
src/tree.rs, keeping the source's spelling). -/
structure ExtratedFile where
  name : String
  path : String
deriving DecidableEq, Repr

/-- The flattened tree (tuple struct `TreeFlatted(Vec<ExtratedFile>)`). -/
structure TreeFlatted where
  files : List ExtratedFile
deriving DecidableEq, Repr

/-- `TreeFlatted::new`. -/
def TreeFlatted.new : TreeFlatted := ⟨[]⟩

mutual

/-- Flattening of one tree of the iterated list in
`impl FromIterator<Tree> for TreeFlatted` (src/tree.rs lines 55-76): a
directory contributes the flattening of its children (the directory node
itself is never emitted), a file contributes its one leaf reference. -/
def TreeFlatted.fromTree : Tree → List ExtratedFile
  | .mk _ _ (some entry) => TreeFlatted.fromListAux entry
  | .mk name path none => [⟨name, path⟩]

/-- The accumulating loop of `TreeFlatted::from_iter`: each tree of the
list is flattened in order and the results are concatenated. -/
def TreeFlatted.fromListAux : List Tree → List ExtratedFile
  | [] => []
  | i :: rest => TreeFlatted.fromTree i ++ TreeFlatted.fromListAux rest

end

/-- Embeds `impl FromIterator<Tree> for TreeFlatted` (src/tree.rs lines
55-76), packaging the depth-first leaf list. -/
def TreeFlatted.from_iter (iter : List Tree) : TreeFlatted :=
  ⟨TreeFlatted.fromListAux iter⟩

/-- Embeds `Tree::compare_dir_content` (src/tree.rs lines 234-241): every
element of the first content sequence equals at least one element of the
second (asymmetric containment). -/
def compare_dir_content (dir_content dir_content_comp : List String) : Bool :=
  dir_content.all fun content =>
    dir_content_comp.any fun content_comp => content_comp == content

/-- Snapshot of one filesystem object, modelling what the tokio primitives
can observe at a path during the walk: a file (whose later
`read_to_string` may fail), a directory whose `read_dir` listing fails
(this also models a missing or unreadable root), or a directory with its
ordered listing of named children (`read_dir` order). -/
inductive FsEntry where
  | file (content : Except IoError String)
  | badDir (e : IoError)
  | dir (entries : List (String × FsEntry))

/-- Path of a directory entry: `entry.path()` joins the parent path and
the file name. -/
def joinPath (dir_path file_name : String) : String :=
  dir_path ++ "/" ++ file_name

mutual

/-- Embeds `Tree::build_tree` (src/tree.rs lines 113-154) over an
`FsEntry` snapshot of `dir_path`. `fs::read_dir(dir_path).await.unwrap()`
fails when the path is not a listable directory; the `excluding` option is
drained into the `exclude` list; each listed entry is then processed in
order by `build_entries`. -/
def build_tree (dir_path : String) (fs : FsEntry)
    (excluding : Option (List String)) (recursive_excluding : Bool) :
    Except IoError (List Tree) :=
  match fs with
  | .file _ => .error ⟨dir_path⟩
  | .badDir e => .error e
  | .dir entries => build_entries dir_path entries (excluding.getD []) recursive_excluding

/-- The `while let Some(entry) = entries.next_entry()` loop of
`build_tree`: skip an entry whose name is in `exclude`; otherwise push a
`Tree` whose `subdir` is `none` for a file and the recursively built
subtree for a directory, the recursive call receiving `some exclude` when
`recursive_excluding` is set and `none` otherwise. -/
def build_entries (dir_path : String) (entries : List (String × FsEntry))
    (exclude : List String) (recursive_excluding : Bool) :
    Except IoError (List Tree) :=
  match entries with
  | [] => .ok []
  | (file_name, child) :: rest =>
      if exclude.any fun item => item == file_name then
        build_entries dir_path rest exclude recursive_excluding
      else
        match child with
        | .file _ => do
            let tail ← build_entries dir_path rest exclude recursive_excluding
            .ok (.mk file_name (joinPath dir_path file_name) none :: tail)
        | _ => do
            let sub ← build_tree (joinPath dir_path file_name) child
              (if recursive_excluding then some exclude else none) recursive_excluding
            let tail ← build_entries dir_path rest exclude recursive_excluding
            .ok (.mk file_name (joinPath dir_path file_name) (some sub) :: tail)

end

/-- The sequential `stream::iter(files).then(read_to_string).collect()`
pipeline of `get_content_files`: read each flattened file in order, the
first failing read (`.unwrap()`) aborting the whole operation. -/
def read_files (read_to_string : String → Except IoError String) :
    List ExtratedFile → Except IoError (List String)
  | [] => .ok []
  | file :: rest => do
      let content ← read_to_string file.path
      let tail ← read_files read_to_string rest
      .ok (content :: tail)

/-- Embeds `Tree::get_content_files` (src/tree.rs lines 204-214): flatten
the tree to its leaf files, then read every file's content by path,
preserving the flattened order. -/
def get_content_files (read_to_string : String → Except IoError String)
    (dir_tree : List Tree) : Except IoError (List String) :=
  read_files read_to_string (TreeFlatted.from_iter dir_tree).files

/-- Options of `dir_diff` (struct `DirDiff` in src/diff.rs). -/
structure DirDiff where
  dir : String
  dir_comp : String
  excluding : Option (List String)
  recursive_excluding : Bool

/-- Options of `file_diff` (struct `FileDiff` in src/diff.rs). -/
structure FileDiff where
  file : String
  file_comp : String

/-- Embeds `dir_diff` (src/lib.rs lines 77-97). `fs_root` gives the
filesystem snapshot observed at a root path and `read_to_string` the text
read primitive. Both trees are built with the same `excluding` and
`recursive_excluding`; a structural difference returns true at once,
otherwise the answer is the negation of the content containment test. -/
def dir_diff (fs_root : String → FsEntry)
    (read_to_string : String → Except IoError String)
    (dir_diff_options : DirDiff) : Except IoError Bool := do
  let tree_one ← build_tree dir_diff_options.dir (fs_root dir_diff_options.dir)
    dir_diff_options.excluding dir_diff_options.recursive_excluding
  let tree_two ← build_tree dir_diff_options.dir_comp (fs_root dir_diff_options.dir_comp)
    dir_diff_options.excluding dir_diff_options.recursive_excluding
  if tree_diff tree_one tree_two then
    return true
  let content_one ← get_content_files read_to_string tree_one
  let content_two ← get_content_files read_to_string tree_two
  return !compare_dir_content content_one content_two

/-- Embeds `file_diff` (src/lib.rs lines 116-123): read both files as
text (each `.unwrap()` aborting on failure) and return true iff the
contents differ. -/
def file_diff (read_to_string : String → Except IoError String)
    (file_diff_options : FileDiff) : Except IoError Bool := do
  let file_one ← read_to_string file_diff_options.file
  let file_two ← read_to_string file_diff_options.file_comp
  return file_one != file_two

/-!
Specification-level definitions, written from the spec's words, to be
compared with the definitions embedded from the source.
-/

mutual

/-- Spec 4.2, per node: two projected entries are equal iff they have the
same name and the same recursive equality of children, with `none` not
equal to `some cs`, including `some []`. -/
def structurally_equal_node : Tree → Tree → Bool
  | .mk n₁ _ none, .mk n₂ _ none => n₁ == n₂
  | .mk n₁ _ (some cs₁), .mk n₂ _ (some cs₂) =>
      n₁ == n₂ && structurally_equal_spec cs₁ cs₂
  | _, _ => false

/-- Spec 4.2: recursive structural equality over ordered sequences — two
sequences are equal iff they have the same length and, at every index,
the elements are equal. -/
def structurally_equal_spec : List Tree → List Tree → Bool
  | [], [] => true
  | a :: as, b :: bs => structurally_equal_node a b && structurally_equal_spec as bs
  | _, _ => false

end

mutual

/-- Spec 4.3, per node: a node with no children is one leaf reference; a
node with children is the concatenation of its recursively flattened
children, the directory node itself never emitted. -/
def flatten_node : Tree → List ExtratedFile
  | .mk name path none => [⟨name, path⟩]
  | .mk _ _ (some children) => flatten_spec children

/-- Spec 4.3: depth-first flattening of a sequence of trees — each tree
flattened in order, children of a directory emitted before its later
siblings, results concatenated. -/
def flatten_spec : List Tree → List ExtratedFile
  | [] => []
  | t :: ts => flatten_node t ++ flatten_spec ts

end

/-!
Helper functions and lemmas.
-/

mutual

/-- Rewrite the `path` field everywhere in a tree, leaving names and the
shape untouched; used to state that `tree_diff` ignores paths. -/
def Tree.mapPath (f : String → String) : Tree → Tree
  | .mk name path (some entry) => .mk name (f path) (some (Tree.mapPathList f entry))
  | .mk name path none => .mk name (f path) none

/-- `Tree.mapPath` over every tree of a sequence. -/
def Tree.mapPathList (f : String → String) : List Tree → List Tree
  | [] => []
  | t :: ts => Tree.mapPath f t :: Tree.mapPathList f ts

end

mutual

theorem TreeComp.beq_iff_eq : ∀ a b : TreeComp, TreeComp.beq a b = true ↔ a = b
  | .mk n₁ none, .mk n₂ none => by
      simp [TreeComp.beq]
  | .mk n₁ (some c₁), .mk n₂ (some c₂) => by
      simp [TreeComp.beq, TreeComp.beqList_iff_eq c₁ c₂]
  | .mk n₁ none, .mk n₂ (some c₂) => by
      simp [TreeComp.beq]
  | .mk n₁ (some c₁), .mk n₂ none => by
      simp [TreeComp.beq]

theorem TreeComp.beqList_iff_eq : ∀ as bs : List TreeComp,
    TreeComp.beqList as bs = true ↔ as = bs
  | [], [] => by simp [TreeComp.beqList]
  | a :: as, b :: bs => by
      simp [TreeComp.beqList, TreeComp.beq_iff_eq a b, TreeComp.beqList_iff_eq as bs]
  | [], _ :: _ => by simp [TreeComp.beqList]
  | _ :: _, [] => by simp [TreeComp.beqList]

end

mutual

theorem beq_fromTree_eq_spec : ∀ a b : Tree,
    TreeComp.beq (TreeComp.fromTree a) (TreeComp.fromTree b) = structurally_equal_node a b
  | .mk _ _ none, .mk _ _ none => by
      simp [TreeComp.fromTree, TreeComp.beq, structurally_equal_node]
  | .mk _ _ (some c₁), .mk _ _ (some c₂) => by
      simp [TreeComp.fromTree, TreeComp.beq, structurally_equal_node,
        beqList_fromList_eq_spec c₁ c₂]
  | .mk _ _ none, .mk _ _ (some _) => by
      simp [TreeComp.fromTree, TreeComp.beq, structurally_equal_node]
  | .mk _ _ (some _), .mk _ _ none => by
      simp [TreeComp.fromTree, TreeComp.beq, structurally_equal_node]

theorem beqList_fromList_eq_spec : ∀ as bs : List Tree,
    TreeComp.beqList (TreeComp.fromList as) (TreeComp.fromList bs) =
      structurally_equal_spec as bs
  | [], [] => by simp [TreeComp.fromList, TreeComp.beqList, structurally_equal_spec]
  | a :: as, b :: bs => by
      simp [TreeComp.fromList, TreeComp.beqList, structurally_equal_spec,
        beq_fromTree_eq_spec a b, beqList_fromList_eq_spec as bs]
  | [], _ :: _ => by simp [TreeComp.fromList, TreeComp.beqList, structurally_equal_spec]
  | _ :: _, [] => by simp [TreeComp.fromList, TreeComp.beqList, structurally_equal_spec]

end

mutual

theorem fromTree_mapPath (f : String → String) : ∀ t : Tree,
    TreeComp.fromTree (Tree.mapPath f t) = TreeComp.fromTree t
  | .mk _ _ none => by simp [Tree.mapPath, TreeComp.fromTree]
  | .mk _ _ (some entry) => by
      simp [Tree.mapPath, TreeComp.fromTree, fromList_mapPathList f entry]

theorem fromList_mapPathList (f : String → String) : ∀ ts : List Tree,
    TreeComp.fromList (Tree.mapPathList f ts) = TreeComp.fromList ts
  | [] => by simp [Tree.mapPathList, TreeComp.fromList]
  | t :: ts => by
      simp [Tree.mapPathList, TreeComp.fromList, fromTree_mapPath f t,
        fromList_mapPathList f ts]

end

theorem tree_diff_eq_not_spec (a b : List Tree) :
    tree_diff a b = !(structurally_equal_spec a b) := by
  simp [tree_diff, beqList_fromList_eq_spec a b]

theorem tree_diff_self (a : List Tree) : tree_diff a a = false := by
  simp [tree_diff, TreeComp.beqList_iff_eq]

theorem compare_dir_content_iff (A B : List String) :
    compare_dir_content A B = true ↔ ∀ a ∈ A, ∃ b ∈ B, a = b := by
  simp only [compare_dir_content, List.all_eq_true, List.any_eq_true, beq_iff_eq]
  constructor
  · exact fun h a ha => (h a ha).imp fun b hb => ⟨hb.1, hb.2.symm⟩
  · exact fun h a ha => (h a ha).imp fun b hb => ⟨hb.1, hb.2.symm⟩

theorem compare_dir_content_self (A : List String) :
    compare_dir_content A A = true := by
  rw [compare_dir_content_iff]
  exact fun a ha => ⟨a, ha, rfl⟩

theorem read_files_ok_iff (r : String → Except IoError String) :
    ∀ (l : List ExtratedFile) (cs : List String),
      read_files r l = .ok cs ↔ List.Forall₂ (fun f c => r f.path = .ok c) l cs
  | [], cs => by
      simp only [read_files]
      constructor
      · rintro h
        cases h
        exact List.Forall₂.nil
      · rintro h
        cases h
        rfl
  | f :: rest, cs => by
      constructor
      · intro h
        simp only [read_files, bind, Except.bind] at h
        cases hr : r f.path with
        | error e => rw [hr] at h; cases h
        | ok c =>
            rw [hr] at h
            cases ht : read_files r rest with
            | error e => rw [ht] at h; cases h
            | ok tail =>
                rw [ht] at h
                cases h
                exact List.Forall₂.cons hr ((read_files_ok_iff r rest tail).mp ht)
      · intro h
        cases h with
        | cons hc htail =>
            simp only [read_files, bind, Except.bind, hc]
            rw [(read_files_ok_iff r rest _).mpr htail]

theorem read_files_succeeds_iff (r : String → Except IoError String) :
    ∀ l : List ExtratedFile,
      (∃ cs, read_files r l = .ok cs) ↔ ∀ f ∈ l, ∃ c, r f.path = .ok c
  | [] => by simp [read_files]
  | f :: rest => by
      constructor
      · rintro ⟨cs, h⟩ g hg
        have := (read_files_ok_iff r (f :: rest) cs).mp h
        cases this with
        | cons hc htail =>
            cases hg with
            | head => exact ⟨_, hc⟩
            | tail _ hmem =>
                exact (read_files_succeeds_iff r rest).mp
                  ⟨_, (read_files_ok_iff r rest _).mpr htail⟩ g hmem
      · intro h
        obtain ⟨c, hc⟩ := h f (by simp)
        obtain ⟨cs, hcs⟩ := (read_files_succeeds_iff r rest).mpr
          fun g hg => h g (by simp [hg])
        exact ⟨c :: cs, by simp only [read_files, bind, Except.bind, hc, hcs]⟩

mutual

/-- The portion of the filesystem that `build_tree` visits has no failing
listing: false on a file or unlistable root, and on a directory every
non-excluded child that is itself a directory must recursively satisfy
the predicate under the exclusion set `build_tree` would pass down. -/
def goodListing : FsEntry → List String → Bool → Bool
  | .file _, _, _ => false
  | .badDir _, _, _ => false
  | .dir entries, exclude, recursive_excluding =>
      goodListingList entries exclude recursive_excluding

/-- `goodListing` over the children of one listing. -/
def goodListingList : List (String × FsEntry) → List String → Bool → Bool
  | [], _, _ => true
  | (file_name, child) :: rest, exclude, recursive_excluding =>
      if exclude.any fun item => item == file_name then
        goodListingList rest exclude recursive_excluding
      else
        (match child with
          | .file _ => true
          | _ => goodListing child (if recursive_excluding then exclude else [])
              recursive_excluding) &&
          goodListingList rest exclude recursive_excluding

end

mutual

theorem build_tree_succeeds_iff :
    ∀ (p : String) (fs : FsEntry) (ex : Option (List String)) (r : Bool),
      (∃ t, build_tree p fs ex r = .ok t) ↔ goodListing fs (ex.getD []) r = true
  | p, .file _, ex, r => by simp [build_tree, goodListing]
  | p, .badDir _, ex, r => by simp [build_tree, goodListing]
  | p, .dir entries, ex, r => by
      simpa [build_tree, goodListing] using
        build_entries_succeeds_iff p entries (ex.getD []) r

theorem build_entries_succeeds_iff :
    ∀ (p : String) (entries : List (String × FsEntry)) (exclude : List String) (r : Bool),
      (∃ t, build_entries p entries exclude r = .ok t) ↔
        goodListingList entries exclude r = true
  | p, [], exclude, r => by simp [build_entries, goodListingList]
  | p, (file_name, child) :: rest, exclude, r => by
      by_cases hex : (exclude.any fun item => item == file_name) = true
      · simpa [build_entries, goodListingList, hex] using
          build_entries_succeeds_iff p rest exclude r
      · rw [Bool.not_eq_true] at hex
        match child with
        | .file _ =>
            simp only [build_entries, goodListingList, hex, Bool.false_eq_true,
              if_false, Bool.true_and]
            rw [← build_entries_succeeds_iff p rest exclude r]
            cases h : build_entries p rest exclude r with
            | error e => simp [bind, Except.bind, h]
            | ok tail => simp [bind, Except.bind, h]
        | .badDir e =>
            simp only [build_entries, goodListingList, hex, Bool.false_eq_true, if_false]
            have hsub := build_tree_succeeds_iff (joinPath p file_name) (.badDir e)
              (if r then some exclude else none) r
            simp only [build_tree, goodListing] at hsub ⊢
            simp [bind, Except.bind]
        | .dir sub =>
            simp only [build_entries, goodListingList, hex, Bool.false_eq_true, if_false]
            have hsub := build_tree_succeeds_iff (joinPath p file_name) (.dir sub)
              (if r then some exclude else none) r
            have hexd : (if r then some exclude else none).getD [] =
                (if r then exclude else []) := by cases r <;> simp
            rw [hexd] at hsub
            rw [Bool.and_eq_true, ← hsub, ← build_entries_succeeds_iff p rest exclude r]
            cases h : build_tree (joinPath p file_name) (.dir sub)
                (if r then some exclude else none) r with
            | error e => simp [bind, Except.bind, h]
            | ok s =>
                cases ht : build_entries p rest exclude r with
                | error e => simp [bind, Except.bind, h, ht]
                | ok tail => simp [bind, Except.bind, h, ht]

end

mutual

theorem fromTree_eq_flatten_node : ∀ t : Tree,
    TreeFlatted.fromTree t = flatten_node t
  | .mk _ _ none => by simp [TreeFlatted.fromTree, flatten_node]
  | .mk _ _ (some entry) => by
      simp [TreeFlatted.fromTree, flatten_node, fromListAux_eq_flatten_spec entry]

theorem fromListAux_eq_flatten_spec : ∀ ts : List Tree,
    TreeFlatted.fromListAux ts = flatten_spec ts
  | [] => by simp [TreeFlatted.fromListAux, flatten_spec]
  | t :: ts => by
      simp [TreeFlatted.fromListAux, flatten_spec, fromTree_eq_flatten_node t,
        fromListAux_eq_flatten_spec ts]

end

theorem build_entries_names :
    ∀ (p : String) (entries : List (String × FsEntry)) (exclude : List String)
      (r : Bool) (t : List Tree),
      build_entries p entries exclude r = .ok t →
      t.map Tree.name =
        (entries.filter fun e => !(exclude.any fun item => item == e.1)).map Prod.fst
  | p, [], exclude, r, t => by
      intro h
      simp only [build_entries] at h
      injection h with h
      subst h
      simp
  | p, (file_name, child) :: rest, exclude, r, t => by
      intro h
      by_cases hex : (exclude.any fun item => item == file_name) = true
      · simp only [build_entries, hex, if_true] at h
        simpa [List.filter_cons, hex] using build_entries_names p rest exclude r t h
      · rw [Bool.not_eq_true] at hex
        match child with
        | .file _ =>
            simp only [build_entries, hex, Bool.false_eq_true, if_false] at h
            cases ht : build_entries p rest exclude r with
            | error e => rw [ht] at h; simp [bind, Except.bind] at h
            | ok tail =>
                rw [ht] at h
                simp only [bind, Except.bind] at h
                injection h with h
                subst h
                simpa [List.filter_cons, hex, Tree.name] using
                  build_entries_names p rest exclude r tail ht
        | .badDir e =>
            simp only [build_entries, hex, Bool.false_eq_true, if_false,
              build_tree, bind, Except.bind] at h
            exact absurd h (by simp)
        | .dir sub =>
            simp only [build_entries, hex, Bool.false_eq_true, if_false] at h
            cases hs : build_tree (joinPath p file_name) (.dir sub)
                (if r then some exclude else none) r with
            | error e => rw [hs] at h; simp [bind, Except.bind] at h
            | ok s =>
                rw [hs] at h
                cases ht : build_entries p rest exclude r with
                | error e => rw [ht] at h; simp [bind, Except.bind] at h
                | ok tail =>
                    rw [ht] at h
                    simp only [bind, Except.bind] at h
                    injection h with h
                    subst h
                    simpa [List.filter_cons, hex, Tree.name] using
                      build_entries_names p rest exclude r tail ht

theorem build_entries_excluded_head (p file_name : String) (e e' : FsEntry)
    (rest : List (String × FsEntry)) (exclude : List String) (r : Bool)
    (hex : (exclude.any fun item => item == file_name) = true) :
    build_entries p ((file_name, e) :: rest) exclude r =
      build_entries p ((file_name, e') :: rest) exclude r := by
  simp [build_entries, hex]

theorem build_entries_dir_head (p file_name : String)
    (sub : List (String × FsEntry)) (rest : List (String × FsEntry))
    (exclude : List String) (r : Bool)
    (hex : (exclude.any fun item => item == file_name) = false) :
    build_entries p ((file_name, .dir sub) :: rest) exclude r =
      (do
        let s ← build_tree (joinPath p file_name) (.dir sub)
          (if r then some exclude else none) r
        let tail ← build_entries p rest exclude r
        .ok (.mk file_name (joinPath p file_name) (some s) :: tail)) := by
  simp [build_entries, hex]

theorem build_tree_none_eq_some_nil (p : String) (fs : FsEntry) (r : Bool) :
    build_tree p fs none r = build_tree p fs (some []) r := by
  cases fs <;> rfl

theorem dir_diff_eq_branches
    (fs_root : String → FsEntry) (read_to_string : String → Except IoError String)
    (o : DirDiff) (t₁ t₂ : List Tree)
    (h₁ : build_tree o.dir (fs_root o.dir) o.excluding o.recursive_excluding = .ok t₁)
    (h₂ : build_tree o.dir_comp (fs_root o.dir_comp) o.excluding
      o.recursive_excluding = .ok t₂) :
    dir_diff fs_root read_to_string o =
      if tree_diff t₁ t₂ then .ok true
      else
        (do
          let content_one ← get_content_files read_to_string t₁
          let content_two ← get_content_files read_to_string t₂
          .ok (!compare_dir_content content_one content_two)) := by
  rw [dir_diff, h₁]
  simp only [bind, Except.bind, h₂]
  by_cases hd : tree_diff t₁ t₂
  · simp [hd, pure, Except.pure]
  · rw [Bool.not_eq_true] at hd
    simp only [hd, Bool.false_eq_true, if_false]
    cases hc₁ : get_content_files read_to_string t₁ with
    | error e => rfl
    | ok c₁ =>
        cases hc₂ : get_content_files read_to_string t₂ with
        | error e => rfl
        | ok c₂ => rfl

/-!
The claim theorems.
-/

/-- Claim C2: for every pair of content sequences A and B,
`compare_dir_content A B` is true iff every element of A equals at least
one element of B (asymmetric containment, not multiset equality); for
A = ["hello"] and B = ["hello", "world"] the test is true one way and
false the other. -/
theorem compare_dir_content_containment :
    (∀ A B : List String,
      compare_dir_content A B = true ↔ ∀ a ∈ A, ∃ b ∈ B, a = b)
    ∧ compare_dir_content ["hello"] ["hello", "world"] = true
    ∧ compare_dir_content ["hello", "world"] ["hello"] = false :=
  ⟨compare_dir_content_iff, by decide, by decide⟩

/-- Witness for C2 at the concrete hello/world sequences. -/
theorem compare_dir_content_containment_witness :
    compare_dir_content ["hello"] ["hello", "world"] = true ∧
      compare_dir_content ["hello", "world"] ["hello"] = false :=
  ⟨compare_dir_content_containment.2.1, compare_dir_content_containment.2.2⟩

/-- Claim C10: `compare_dir_content` applied to the empty sequence and any
B is vacuously true, and a tree flattening to no files yields the empty
content sequence under any reading function, so a tree containing no
files is judged content-equivalent to any other tree. -/
theorem compare_dir_content_empty :
    (∀ B : List String, compare_dir_content [] B = true)
    ∧ ∀ (read_to_string : String → Except IoError String) (ts : List Tree),
        (TreeFlatted.from_iter ts).files = [] →
        get_content_files read_to_string ts = .ok [] := by
  refine ⟨fun B => rfl, fun r ts h => ?_⟩
  rw [get_content_files, h]
  rfl

/-- Witness for C10 at the empty tree and an always-failing reader. -/
theorem compare_dir_content_empty_witness :
    compare_dir_content [] ["x"] = true ∧
      get_content_files (fun p => .error ⟨p⟩) [] = .ok [] :=
  ⟨compare_dir_content_empty.1 ["x"],
   compare_dir_content_empty.2 (fun p => .error ⟨p⟩) [] rfl⟩

/-- Claim C3: `tree_diff` compares the path-stripped projections under
recursive structural equality of ordered sequences; the result is
independent of the path fields, a node with empty children differs from a
childless node, and swapping child order changes the result. -/
theorem tree_diff_structural_spec :
    (∀ a b : List Tree, tree_diff a b = !(structurally_equal_spec a b))
    ∧ (∀ (f g : String → String) (a b : List Tree),
        tree_diff (Tree.mapPathList f a) (Tree.mapPathList g b) = tree_diff a b)
    ∧ tree_diff [.mk "n" "p" (some [])] [.mk "n" "p" none] = true
    ∧ tree_diff [.mk "a" "p" none, .mk "b" "q" none]
        [.mk "b" "q" none, .mk "a" "p" none] = true :=
  ⟨tree_diff_eq_not_spec,
   fun f g a b => by
     simp [tree_diff, fromList_mapPathList],
   by rfl, by rfl⟩

/-- Witness for C3: the empty-directory node differs from the file node,
and rewriting every path leaves the comparison unchanged. -/
theorem tree_diff_structural_spec_witness :
    tree_diff [.mk "n" "p" (some [])] [.mk "n" "p" none] = true ∧
      tree_diff (Tree.mapPathList (fun _ => "z") [.mk "a" "p" none])
        (Tree.mapPathList (fun p => p) [.mk "a" "q" none]) =
        tree_diff [.mk "a" "p" none] [.mk "a" "q" none] :=
  ⟨tree_diff_structural_spec.2.2.1,
   tree_diff_structural_spec.2.1 (fun _ => "z") (fun p => p)
     [.mk "a" "p" none] [.mk "a" "q" none]⟩

/-- Claim C7: `get_content_files` returns exactly the contents of the
leaf nodes of the depth-first flattening — children of a directory before
later siblings, each child flattened in order, directory nodes never
emitted — and the content order matches the flattened leaf order. -/
theorem get_content_files_spec :
    (∀ ts : List Tree, (TreeFlatted.from_iter ts).files = flatten_spec ts)
    ∧ ∀ (read_to_string : String → Except IoError String) (ts : List Tree)
        (cs : List String),
        get_content_files read_to_string ts = .ok cs →
        List.Forall₂ (fun f c => read_to_string f.path = .ok c) (flatten_spec ts) cs := by
  refine ⟨fun ts => fromListAux_eq_flatten_spec ts, fun r ts cs h => ?_⟩
  rw [get_content_files] at h
  have h₂ := (read_files_ok_iff r _ cs).mp h
  have h₃ : (TreeFlatted.from_iter ts).files = flatten_spec ts :=
    fromListAux_eq_flatten_spec ts
  rwa [h₃] at h₂

/-- Witness for C7 on a two-level tree with a content-returning reader. -/
theorem get_content_files_spec_witness :
    List.Forall₂ (fun (f : ExtratedFile) (c : String) =>
        (Except.ok f.path : Except IoError String) = Except.ok c)
      (flatten_spec [Tree.mk "d" "r/d" (some [Tree.mk "b" "r/d/b" none]),
        Tree.mk "a" "r/a" none])
      ["r/d/b", "r/a"] := by
  exact get_content_files_spec.2 (fun p => (Except.ok p : Except IoError String))
    [Tree.mk "d" "r/d" (some [Tree.mk "b" "r/d/b" none]), Tree.mk "a" "r/a" none]
    ["r/d/b", "r/a"] (by rfl)

/-- Claim C9: for readable files, `file_diff` is true iff the two text
contents differ; in particular `file_diff` of a readable file against
itself is false. -/
theorem file_diff_spec :
    (∀ (read_to_string : String → Except IoError String) (P Q a b : String),
        read_to_string P = .ok a → read_to_string Q = .ok b →
        (file_diff read_to_string ⟨P, Q⟩ = .ok true ↔ a ≠ b))
    ∧ ∀ (read_to_string : String → Except IoError String) (P a : String),
        read_to_string P = .ok a → file_diff read_to_string ⟨P, P⟩ = .ok false := by
  constructor
  · intro r P Q a b ha hb
    simp [file_diff, ha, hb, bind, Except.bind, pure, Except.pure, bne_iff_ne]
  · intro r P a ha
    simp [file_diff, ha, bind, Except.bind, pure, Except.pure]

/-- Witness for C9 with the identity reader at paths "p" and "q". -/
theorem file_diff_spec_witness :
    file_diff (fun p => Except.ok p) ⟨"p", "q"⟩ = .ok true ∧
      file_diff (fun p => Except.ok p) ⟨"p", "p"⟩ = .ok false :=
  ⟨(file_diff_spec.1 (fun p => Except.ok p) "p" "q" "p" "q" rfl rfl).mpr (by decide),
   file_diff_spec.2 (fun p => Except.ok p) "p" "p" rfl⟩

/-- Claim C1: when both roots build (with the same exclusion parameters on
both sides), `dir_diff` returns true at once when the two trees are
structurally different, and otherwise the negation of the content
containment test applied to the two content sequences read from the
flattened trees. -/
theorem dir_diff_composition
    (fs_root : String → FsEntry) (read_to_string : String → Except IoError String)
    (o : DirDiff) (t₁ t₂ : List Tree)
    (h₁ : build_tree o.dir (fs_root o.dir) o.excluding o.recursive_excluding = .ok t₁)
    (h₂ : build_tree o.dir_comp (fs_root o.dir_comp) o.excluding
      o.recursive_excluding = .ok t₂) :
    dir_diff fs_root read_to_string o =
      if tree_diff t₁ t₂ then .ok true
      else
        (do
          let content_one ← get_content_files read_to_string t₁
          let content_two ← get_content_files read_to_string t₂
          .ok (!compare_dir_content content_one content_two)) :=
  dir_diff_eq_branches fs_root read_to_string o t₁ t₂ h₁ h₂

/-- Witness for C1: two single-file roots with equal shape, evaluated with
the identity reader. -/
theorem dir_diff_composition_witness :
    dir_diff (fun _ => .dir [("a", .file (.ok "x"))]) (fun p => Except.ok p)
        ⟨"r", "s", none, false⟩ =
      if tree_diff [.mk "a" "r/a" none] [.mk "a" "s/a" none] then .ok true
      else
        (do
          let content_one ← get_content_files (fun p => Except.ok p) [.mk "a" "r/a" none]
          let content_two ← get_content_files (fun p => Except.ok p) [.mk "a" "s/a" none]
          .ok (!compare_dir_content content_one content_two)) :=
  dir_diff_composition (fun _ => .dir [("a", .file (.ok "x"))]) (fun p => Except.ok p)
    ⟨"r", "s", none, false⟩ [.mk "a" "r/a" none] [.mk "a" "s/a" none] rfl rfl

/-- Claim C4: when the two built trees are structurally different,
`dir_diff` returns true for every reading function, so no file content is
read and an unreadable file cannot cause an error on this path. -/
theorem dir_diff_short_circuit
    (fs_root : String → FsEntry) (o : DirDiff) (t₁ t₂ : List Tree)
    (h₁ : build_tree o.dir (fs_root o.dir) o.excluding o.recursive_excluding = .ok t₁)
    (h₂ : build_tree o.dir_comp (fs_root o.dir_comp) o.excluding
      o.recursive_excluding = .ok t₂)
    (hd : tree_diff t₁ t₂ = true) :
    ∀ read_to_string : String → Except IoError String,
      dir_diff fs_root read_to_string o = .ok true := by
  intro r
  rw [dir_diff_eq_branches fs_root r o t₁ t₂ h₁ h₂, hd]
  rfl

/-- Witness for C4: roots with differently named files and a reader that
always fails, so every file is unreadable; the answer is still true. -/
theorem dir_diff_short_circuit_witness :
    dir_diff (fun p => if p == "r" then .dir [("a", .file (.error ⟨"r/a"⟩))]
        else .dir [("b", .file (.error ⟨"s/b"⟩))])
      (fun p => .error ⟨p⟩) ⟨"r", "s", none, false⟩ = .ok true :=
  dir_diff_short_circuit
    (fun p => if p == "r" then .dir [("a", .file (.error ⟨"r/a"⟩))]
      else .dir [("b", .file (.error ⟨"s/b"⟩))])
    ⟨"r", "s", none, false⟩ [.mk "a" "r/a" none] [.mk "b" "s/b" none]
    rfl rfl rfl (fun p => .error ⟨p⟩)

/-- Claim C8: `dir_diff` of a readable root against itself, with no
exclusions and non-recursive exclusion, is false. -/
theorem dir_diff_reflexive
    (fs_root : String → FsEntry) (read_to_string : String → Except IoError String)
    (p : String) (t : List Tree) (c : List String)
    (hb : build_tree p (fs_root p) none false = .ok t)
    (hc : get_content_files read_to_string t = .ok c) :
    dir_diff fs_root read_to_string ⟨p, p, none, false⟩ = .ok false := by
  rw [dir_diff_eq_branches fs_root read_to_string ⟨p, p, none, false⟩ t t hb hb,
    tree_diff_self]
  simp only [Bool.false_eq_true, if_false, bind, Except.bind, hc,
    compare_dir_content_self]
  rfl

/-- Witness for C8 on a concrete two-entry root with the identity
reader. -/
theorem dir_diff_reflexive_witness :
    dir_diff (fun _ => .dir [("a", .file (.ok "x")), ("d", .dir [("b", .file (.ok "y"))])])
      (fun p => Except.ok p) ⟨"r", "r", none, false⟩ = .ok false :=
  dir_diff_reflexive
    (fun _ => .dir [("a", .file (.ok "x")), ("d", .dir [("b", .file (.ok "y"))])])
    (fun p => Except.ok p) "r"
    [.mk "a" "r/a" none, .mk "d" "r/d" (some [.mk "b" "r/d/b" none])]
    ["r/a", "r/d/b"] rfl rfl

/-- Claim C5: `build_tree` fails with an `IoError` when the root is not a
listable directory (a file, a missing path or a failing listing), and
succeeds exactly when every visited non-excluded listing succeeds (so any
nested listing failure aborts the whole build); `get_content_files`
succeeds exactly when every flattened file is readable (so a single
failing read aborts the whole read); a failing read of either file aborts
`file_diff`; and `dir_diff` fails whenever either root's build fails or,
the trees being structurally equal, either content read fails. Every
failing path returns a bare `Except.error`, never a partial result. -/
theorem io_error_propagation :
    (∀ (p : String) (content : Except IoError String) (ex : Option (List String))
        (r : Bool), build_tree p (.file content) ex r = .error ⟨p⟩)
    ∧ (∀ (p : String) (e : IoError) (ex : Option (List String)) (r : Bool),
        build_tree p (.badDir e) ex r = .error e)
    ∧ (∀ (p : String) (fs : FsEntry) (ex : Option (List String)) (r : Bool),
        (∃ t, build_tree p fs ex r = .ok t) ↔ goodListing fs (ex.getD []) r = true)
    ∧ (∀ (read_to_string : String → Except IoError String) (ts : List Tree),
        (∃ cs, get_content_files read_to_string ts = .ok cs) ↔
          ∀ f ∈ (TreeFlatted.from_iter ts).files, ∃ c, read_to_string f.path = .ok c)
    ∧ (∀ (read_to_string : String → Except IoError String) (o : FileDiff)
        (e : IoError), read_to_string o.file = .error e →
        file_diff read_to_string o = .error e)
    ∧ (∀ (read_to_string : String → Except IoError String) (o : FileDiff)
        (s : String) (e : IoError), read_to_string o.file = .ok s →
        read_to_string o.file_comp = .error e →
        file_diff read_to_string o = .error e)
    ∧ (∀ (fs_root : String → FsEntry)
        (read_to_string : String → Except IoError String) (o : DirDiff) (e : IoError),
        build_tree o.dir (fs_root o.dir) o.excluding o.recursive_excluding = .error e →
        dir_diff fs_root read_to_string o = .error e)
    ∧ (∀ (fs_root : String → FsEntry)
        (read_to_string : String → Except IoError String) (o : DirDiff)
        (t₁ : List Tree) (e : IoError),
        build_tree o.dir (fs_root o.dir) o.excluding o.recursive_excluding = .ok t₁ →
        build_tree o.dir_comp (fs_root o.dir_comp) o.excluding
          o.recursive_excluding = .error e →
        dir_diff fs_root read_to_string o = .error e)
    ∧ (∀ (fs_root : String → FsEntry)
        (read_to_string : String → Except IoError String) (o : DirDiff)
        (t₁ t₂ : List Tree) (e : IoError),
        build_tree o.dir (fs_root o.dir) o.excluding o.recursive_excluding = .ok t₁ →
        build_tree o.dir_comp (fs_root o.dir_comp) o.excluding
          o.recursive_excluding = .ok t₂ →
        tree_diff t₁ t₂ = false →
        get_content_files read_to_string t₁ = .error e →
        dir_diff fs_root read_to_string o = .error e)
    ∧ ∀ (fs_root : String → FsEntry)
        (read_to_string : String → Except IoError String) (o : DirDiff)
        (t₁ t₂ : List Tree) (c₁ : List String) (e : IoError),
        build_tree o.dir (fs_root o.dir) o.excluding o.recursive_excluding = .ok t₁ →
        build_tree o.dir_comp (fs_root o.dir_comp) o.excluding
          o.recursive_excluding = .ok t₂ →
        tree_diff t₁ t₂ = false →
        get_content_files read_to_string t₁ = .ok c₁ →
        get_content_files read_to_string t₂ = .error e →
        dir_diff fs_root read_to_string o = .error e := by
  refine ⟨fun p c ex r => rfl, fun p e ex r => rfl, build_tree_succeeds_iff,
    fun r ts => read_files_succeeds_iff r (TreeFlatted.from_iter ts).files,
    fun r o e h => ?_, fun r o s e h₁ h₂ => ?_, fun fr r o e h => ?_,
    fun fr r o t₁ e h₁ h₂ => ?_, fun fr r o t₁ t₂ e h₁ h₂ hd hc => ?_,
    fun fr r o t₁ t₂ c₁ e h₁ h₂ hd hc₁ hc₂ => ?_⟩
  · rw [file_diff, h]
    rfl
  · rw [file_diff, h₁]
    simp only [bind, Except.bind, h₂]
  · rw [dir_diff, h]
    rfl
  · rw [dir_diff, h₁]
    simp only [bind, Except.bind, h₂]
  · rw [dir_diff_eq_branches fr r o t₁ t₂ h₁ h₂, hd]
    simp only [Bool.false_eq_true, if_false, bind, Except.bind, hc]
  · rw [dir_diff_eq_branches fr r o t₁ t₂ h₁ h₂, hd]
    simp only [Bool.false_eq_true, if_false, bind, Except.bind, hc₁, hc₂]

/-- Witness for C5: a failing read of the first file aborts `file_diff`
with that error, and under an always-failing reader two equal-shaped
roots make `dir_diff` abort with the first file's read error. -/
theorem io_error_propagation_witness :
    file_diff (fun p => .error ⟨p⟩) ⟨"a", "b"⟩ = .error ⟨"a"⟩ ∧
      dir_diff (fun _ => .dir [("a", .file (.error ⟨"x"⟩))]) (fun p => .error ⟨p⟩)
        ⟨"r", "s", none, false⟩ = .error ⟨"r/a"⟩ :=
  ⟨io_error_propagation.2.2.2.2.1 (fun p => .error ⟨p⟩) ⟨"a", "b"⟩ ⟨"a"⟩ rfl,
   io_error_propagation.2.2.2.2.2.2.2.2.1
     (fun _ => .dir [("a", .file (.error ⟨"x"⟩))]) (fun p => .error ⟨p⟩)
     ⟨"r", "s", none, false⟩ [.mk "a" "r/a" none] [.mk "a" "s/a" none] ⟨"r/a"⟩
     rfl rfl rfl rfl⟩

/-- Claim C6: `build_tree` omits every immediate entry whose name is in
the exclusion set (the resulting names are exactly the listing names that
survive the filter), never visits the subtree of an omitted entry (the
result does not depend on what stands at an excluded name), and passes to
each recursive subdirectory call the same exclusion set when
`recursive_excluding` is true and the empty one (`none`, which drains to
the empty set) when it is false. -/
theorem build_tree_exclusion_spec :
    (∀ (p : String) (entries : List (String × FsEntry)) (ex : Option (List String))
        (r : Bool) (t : List Tree),
        build_tree p (.dir entries) ex r = .ok t →
        t.map Tree.name =
          (entries.filter fun e =>
            !((ex.getD []).any fun item => item == e.1)).map Prod.fst)
    ∧ (∀ (p file_name : String) (e e' : FsEntry) (rest : List (String × FsEntry))
        (ex : Option (List String)) (r : Bool),
        ((ex.getD []).any fun item => item == file_name) = true →
        build_tree p (.dir ((file_name, e) :: rest)) ex r =
          build_tree p (.dir ((file_name, e') :: rest)) ex r)
    ∧ (∀ (p file_name : String) (sub rest : List (String × FsEntry))
        (exclude : List String) (r : Bool),
        (exclude.any fun item => item == file_name) = false →
        build_entries p ((file_name, .dir sub) :: rest) exclude r =
          (do
            let s ← build_tree (joinPath p file_name) (.dir sub)
              (if r then some exclude else none) r
            let tail ← build_entries p rest exclude r
            .ok (.mk file_name (joinPath p file_name) (some s) :: tail)))
    ∧ ∀ (p : String) (fs : FsEntry) (r : Bool),
        build_tree p fs none r = build_tree p fs (some []) r := by
  refine ⟨fun p entries ex r t h => ?_, fun p n e e' rest ex r hex => ?_,
    build_entries_dir_head, build_tree_none_eq_some_nil⟩
  · rw [build_tree] at h
    exact build_entries_names p entries (ex.getD []) r t h
  · rw [build_tree, build_tree]
    exact build_entries_excluded_head p n e e' rest (ex.getD []) r hex

/-- Witness for C6: an excluded name is omitted even when its entry is an
unlistable directory, and the surviving names are the filtered ones. -/
theorem build_tree_exclusion_spec_witness :
    List.map Tree.name [Tree.mk "keep" "r/keep" none] =
      List.map Prod.fst
        (List.filter
          (fun e => !((some ["skip"] : Option (List String)).getD []).any
            fun item => item == e.1)
          [("skip", FsEntry.badDir ⟨"r/skip"⟩), ("keep", FsEntry.file (.ok "x"))]) :=
  build_tree_exclusion_spec.1 "r"
    [("skip", FsEntry.badDir ⟨"r/skip"⟩), ("keep", FsEntry.file (.ok "x"))]
    (some ["skip"]) false [Tree.mk "keep" "r/keep" none] rfl

end SpielrsDiff
